import Mathlib

/-!
# Verification of the boss-bot command dispatch core

This file is a shallow embedding, in Lean 4, of the command-dispatch and
asynchronous-response lifecycle engine of the `boss-bot` repository:

* `lib/commands.js` — the `Command` class: `run`, `_handleResult`,
  `_handleException`, and the `cooldownTime` setter;
* `lib/bot.js` — the `Bot` class: `handleMessage`, `addCommand`,
  `findCommand`, and the `PREFIX_WHOLE_WORD` prefix matcher
  (also in `lib/prefix.js`).

JavaScript values that flow through the engine are modelled by the
inductive type `JSValue`; JavaScript truthiness and the `ToNumber`
coercion used by relational operators are modelled explicitly.  Platform
and library APIs that the code calls (`String.prototype.localeCompare`
with `{usage: "search"}`, `toLocaleLowerCase`, `toUpperCase`, and
discord.js's `escapeMarkdown`) are modelled as executable Lean functions
over ASCII case mapping, as described by each definition's doc comment.
The event-loop behaviour of `Command.run`'s promise path is modelled as a
deterministic timed trace of the channel operations it performs.
-/

/--
Model of the JavaScript values a command handler may produce and that
`Command._handleResult` dispatches on: `undefined`, `null`, booleans,
(integer) numbers, strings, arrays of strings, and plain objects carrying
`content` and `embed` fields (`undef` standing for an absent field).
-/
inductive JSValue where
  | undef : JSValue
  | nullv : JSValue
  | bool : Bool → JSValue
  | num : Int → JSValue
  | str : String → JSValue
  | arr : List String → JSValue
  | obj : JSValue → JSValue → JSValue
  deriving DecidableEq, Repr

namespace JSValue

/--
JavaScript truthiness (`!result` in `_handleResult` tests its negation):
`undefined`, `null`, `false`, `0` and `""` are falsy; every array and
every object is truthy.  (NaN, the remaining falsy value, is not part of
the model: handler results are produced by integer arithmetic here.)
-/
def truthy : JSValue → Bool
  | undef => false
  | nullv => false
  | bool b => b
  | num n => n != 0
  | str s => s != ""
  | arr _ => true
  | obj _ _ => true

/--
Model of the JavaScript string-to-number coercion for the strings this
model distinguishes: the empty string coerces to 0, a string of decimal
digits to its value, anything else to NaN (`none`).
-/
def stringToNumber (s : String) : Option Int :=
  if s = "" then some 0
  else if s.data.all Char.isDigit then
    some ((s.data.foldl (fun n c => 10 * n + (c.toNat - 48)) 0 : Nat) : Int)
  else none

/--
Model of the JavaScript `ToNumber` coercion as used by the relational
operators `>=` and `<`: `none` stands for NaN (every comparison with NaN
is false).  `null` coerces to 0, booleans to 0/1, a string via
`stringToNumber`, a one-element array via its element's string
coercion, the empty array to 0, and everything else (including plain
objects and multi-element arrays) to NaN.
-/
def toNumber : JSValue → Option Int
  | undef => none
  | nullv => some 0
  | bool b => some (if b then 1 else 0)
  | num n => some n
  | str s => stringToNumber s
  | arr [] => some 0
  | arr [s] => stringToNumber s
  | arr (_ :: _ :: _) => none
  | obj _ _ => none

end JSValue

/--
Model of the JavaScript relational `a >= b` for a `JSValue` against an
integer constant: `ToNumber`-coerce, NaN compares false.
-/
def jsGe (a : JSValue) (b : Int) : Bool :=
  match a.toNumber with
  | some n => b ≤ n
  | none => false

/--
Model of the JavaScript relational `a < b` for a `JSValue` against an
integer constant: `ToNumber`-coerce, NaN compares false.
-/
def jsLt (a : JSValue) (b : Int) : Bool :=
  match a.toNumber with
  | some n => n < b
  | none => false

/--
Model of discord.js's `escapeMarkdown`: a backslash is inserted before
each markdown metacharacter (`*`, `_`, backtick, `~`, `\`).
-/
def escapeMarkdown (s : String) : String :=
  ⟨s.data.foldr
    (fun c acc =>
      if c = '*' ∨ c = '_' ∨ c = Char.ofNat 96 ∨ c = '~' ∨ c = '\\'
      then '\\' :: c :: acc
      else c :: acc) []⟩

namespace Command

/--
The action `Command._handleResult` performs on the channel / loading
message, together with the payload handed to the discord.js call:
`content` and `embed` positional arguments (`JSValue.undef` models an
argument that was not passed).
-/
inductive ResultAction where
  | deleteLoading : ResultAction
  | editLoading : JSValue → JSValue → ResultAction
  | sendChannel : JSValue → JSValue → ResultAction
  | noAction : ResultAction
  deriving DecidableEq, Repr

/--
Shallow embedding of `Command._handleResult(result, channel,
loadingMessage)` from `lib/commands.js` lines 297–320.  `loading` is
whether a loading message handle was passed.  The second component of
the pair records whether the JavaScript function returns a promise
(`true`) or falls off the end returning `undefined` (`false`):

```js
if (!result) {
  if (loadingMessage && result !== false) return loadingMessage.delete();
  return Promise.resolve();
}
if (typeof result === 'string' || Array.isArray(result)) {
  if (loadingMessage) return loadingMessage.edit(result);
  else return channel.send(result);
} else if (typeof result === 'object') {
  if (loadingMessage) return loadingMessage.edit(result.content, result.embed);
  else return channel.send(result.content, result.embed);
}
```
-/
def _handleResult (result : JSValue) (loading : Bool) : ResultAction × Bool :=
  if ¬ result.truthy then
    if loading ∧ result ≠ .bool false then (.deleteLoading, true)
    else (.noAction, true)
  else
    match result with
    | .str _ | .arr _ =>
      if loading then (.editLoading result .undef, true)
      else (.sendChannel result .undef, true)
    | .obj content embed =>
      if loading then (.editLoading content embed, true)
      else (.sendChannel content embed, true)
    | _ => (.noAction, false)

/--
Shallow embedding of `Command._handleException(args, ex)` from
`lib/commands.js` lines 288–290: renders the exception as a
user-visible string naming the invoked command (`args[0]`):

```js
return `Exception in ${discord.escapeMarkdown(args[0])}: \x60${discord.escapeMarkdown(ex.toString())}\x60`;
```
-/
def _handleException (args : List String) (ex : String) : String :=
  "Exception in " ++ escapeMarkdown (args.headD "") ++ ": `"
    ++ escapeMarkdown ex ++ "`"

/--
The outcome of the call `this.runCommand(bot, args, message, line)` in
`Command.run`: either a returned value or a synchronously thrown
exception (carrying its `toString()` text).
-/
def resultAfterCatch (args : List String) (outcome : Except String JSValue) :
    JSValue :=
  match outcome with
  | .ok v => v
  | .error ex => .str (_handleException args ex)

/--
Shallow embedding of the synchronous path of `Command.run` from
`lib/commands.js` lines 207–213 and 278–280: `runCommand` is invoked in
a `try`/`catch`, a thrown exception is replaced by the
`_handleException` string, and a non-promise result is delivered by
`this._handleResult(result, message.channel)` with no loading message.
-/
def runSync (args : List String) (outcome : Except String JSValue) :
    ResultAction × Bool :=
  _handleResult (resultAfterCatch args outcome) false

/--
A timed channel operation performed by `Command.run`'s promise path:
a `channel.send`, a `loadingMessage.edit`, or a `loadingMessage.delete`,
with the payload's `content`/`embed` arguments and the (millisecond)
time at which the call happens, measured from the start of `run`.
-/
inductive TraceEvent where
  | sendMsg : JSValue → JSValue → Int → TraceEvent
  | editMsg : JSValue → JSValue → Int → TraceEvent
  | deleteMsg : Int → TraceEvent
  deriving DecidableEq, Repr

/-- `true` exactly on `editMsg` events. -/
def TraceEvent.isEdit : TraceEvent → Bool
  | .editMsg _ _ _ => true
  | _ => false

/--
The time at which `editLoadingMessage` (inside `Command.run`,
`lib/commands.js` lines 223–235) actually performs `_handleResult`,
when invoked at time `now` with a loading message sent at
`loadingSentAt`:

```js
let now = new Date().getTime(), wanted = loadingSentAt + this._postLoadingDelay;
if (now < wanted) { setTimeout(..., wanted - now); } else { /* immediately */ }
```
-/
def editLoadingTime (loadingSentAt postLoadingDelay now : Int) : Int :=
  let wanted := loadingSentAt + postLoadingDelay
  if now < wanted then wanted else now

/--
The timed trace of `_handleResult result loading` performed at time `t`:
the single channel operation the case analysis dictates, or no event at
all for result values outside the documented set.
-/
def handleResultEvents (result : JSValue) (loading : Bool) (t : Int) :
    List TraceEvent :=
  match (_handleResult result loading).1 with
  | .deleteLoading => [.deleteMsg t]
  | .editLoading c e => [.editMsg c e t]
  | .sendChannel c e => [.sendMsg c e t]
  | .noAction => []

/--
Deterministic timed trace of the promise path of `Command.run`
(`lib/commands.js` lines 214–277), for a handler promise that settles
with value `final` at time `settleTime` (measured from the start of
`run`), with `channel.send` of the loading message taking `sendLatency`
milliseconds to resolve, and `loadingText` the text chosen for the
loading message (`result.loadingMessage` if set, else
`getLoadingMessage(...)`).  Mirrors the code's branches:

* `loadingDelay < 0`: no loading timer is ever scheduled (`timeout`
  stays `null`); on settlement the code only records `haveFinalResult`
  and, `loadingMessage` being `null`, performs nothing — the trace is
  empty (and the returned promise never resolves).
* settlement before the loading timer fires (`settleTime <
  loadingDelay`, so `timeout !== null`): `clearTimeout`, and the result
  is delivered immediately with no loading message.
* otherwise the timer fires at `loadingDelay`, `loadingSentAt` is
  recorded and the loading message is sent; the send resolves at
  `loadingDelay + sendLatency`.  `editLoadingMessage` runs as soon as
  both the send has resolved and the promise has settled, and performs
  `_handleResult` at `editLoadingTime loadingSentAt postLoadingDelay ·`.
-/
def runPromiseTrace (loadingDelay postLoadingDelay : Int)
    (settleTime sendLatency : Int) (loadingText : String) (final : JSValue) :
    List TraceEvent :=
  if loadingDelay < 0 then
    []
  else if settleTime < loadingDelay then
    handleResultEvents final false settleTime
  else
    let loadingSentAt := loadingDelay
    let sendResolvesAt := loadingDelay + sendLatency
    let editInvokedAt := if settleTime < sendResolvesAt then sendResolvesAt
                         else settleTime
    .sendMsg (.str loadingText) .undef loadingSentAt ::
      handleResultEvents final true
        (editLoadingTime loadingSentAt postLoadingDelay editInvokedAt)

/--
Shallow embedding of the `cooldownTime` setter of `Command`
(`lib/commands.js` lines 149–152): the stored value is replaced only
when the JavaScript condition
`cooldownTime >= 0 && cooldownTime < 24*60*60*1000` holds (relational
operators coercing via `ToNumber`); otherwise the previous setting is
kept.
-/
def set_cooldownTime (current : JSValue) (cooldownTime : JSValue) : JSValue :=
  if jsGe cooldownTime 0 && jsLt cooldownTime (24 * 60 * 60 * 1000) then
    cooldownTime
  else current

end Command

/--
Model of the JavaScript regular-expression character class `\s`: the
whitespace characters recognised by ECMAScript (`\f\n\r\t\v`, space,
no-break space, the Unicode space separators, line/paragraph separators
and the BOM).
-/
def jsWhitespace (c : Char) : Bool :=
  c = ' ' || c = '\t' || c = '\n' || c = '\x0b' || c = '\x0c' || c = '\r' ||
  c.toNat = 0xa0 || c.toNat = 0x1680 ||
  (0x2000 ≤ c.toNat && c.toNat ≤ 0x200a) ||
  c.toNat = 0x2028 || c.toNat = 0x2029 || c.toNat = 0x202f ||
  c.toNat = 0x205f || c.toNat = 0x3000 || c.toNat = 0xfeff

/--
Model of ASCII lower-casing of a single character, as performed (on the
ASCII range, which is locale-independent) by the JavaScript
`String.prototype.toLocaleLowerCase`.  Non-ASCII characters are left
unchanged in this model.
-/
def jsCharToLower (c : Char) : Char :=
  if 65 ≤ c.toNat ∧ c.toNat ≤ 90 then Char.ofNat (c.toNat + 32) else c

/--
Model of ASCII upper-casing of a single character, as performed (on the
ASCII range) by the JavaScript `String.prototype.toUpperCase`.
Non-ASCII characters are left unchanged in this model.
-/
def jsCharToUpper (c : Char) : Char :=
  if 97 ≤ c.toNat ∧ c.toNat ≤ 122 then Char.ofNat (c.toNat - 32) else c

/--
Model of `s.toLocaleLowerCase(locale)`: character-wise ASCII
lower-casing.  The locale argument is kept to mirror the call sites but
does not change the ASCII mapping.
-/
def jsToLocaleLowerCase (s : String) (locale : String) : String :=
  ⟨s.data.map jsCharToLower⟩

/-- Model of `s.toUpperCase()`: character-wise ASCII upper-casing. -/
def jsToUpperCase (s : String) : String :=
  ⟨s.data.map jsCharToUpper⟩

/--
Model of `a.localeCompare(b, locale, { usage: "search" }) === 0` — the
locale-aware, case-insensitive equality used by the prefix matchers
(described in the repository as comparing "case-insensitively based on
the locale"): the two strings are equal after case folding.
-/
def localeCompareSearchEq (a b : String) (locale : String) : Bool :=
  jsToLocaleLowerCase a locale = jsToLocaleLowerCase b locale

/--
Shallow embedding of `PREFIX_WHOLE_WORD.match(prefix, message, locale)`
from `lib/prefix.js` lines 10–17 (identical in `lib/bot.js` lines
608–615).  The regular expression `/^\s*(\S+)/` is decomposed as: the
maximal leading run of whitespace, followed by a nonempty maximal run of
non-whitespace (the first token, `m[1]`).  On a match whose token
locale-equals the prefix, the code returns
`message.substring(m[0].length)` where `m[0]` is the whitespace plus the
token:

```js
let m = /^\s*(\S+)/.exec(message);
if (m && m[1].localeCompare(prefix, locale, { usage: "search" }) === 0) {
  return message.substring(m[0].length);
} else {
  return null;
}
```
-/
def PREFIX_WHOLE_WORD_match (pfx : String) (message : String)
    (locale : String) : Option String :=
  let ws := message.data.takeWhile jsWhitespace
  let token := (message.data.dropWhile jsWhitespace).takeWhile
    (fun c => ! jsWhitespace c)
  if token = [] then none
  else if localeCompareSearchEq ⟨token⟩ pfx locale then
    some ⟨message.data.drop (ws.length + token.length)⟩
  else none

/--
The first whitespace-delimited token of a string, when one exists: the
maximal run of non-whitespace characters that follows the leading
whitespace.  `none` for a blank or whitespace-only string.  (This is
the specification-side description of `m[1]` in the whole-word
matcher's regular expression.)
-/
def firstToken (text : String) : Option String :=
  match (text.data.dropWhile jsWhitespace).takeWhile
    (fun c => ! jsWhitespace c) with
  | [] => none
  | token => some ⟨token⟩

/--
The suffix of `text` that follows its first whitespace-delimited token:
everything after the leading whitespace and the token, keeping the
suffix's own leading whitespace.
-/
def suffixAfterFirstToken (text : String) : String :=
  ⟨((text.data.dropWhile jsWhitespace).dropWhile
    (fun c => ! jsWhitespace c))⟩

/--
Lookup in a JavaScript `Map` keyed by strings (the bot's `_cooldowns`
and `_commands` maps), modelled as an association list: the value bound
to `k`, or `none`.
-/
def mapGet {α : Type} (m : List (String × α)) (k : String) : Option α :=
  match m with
  | [] => none
  | (k', v) :: rest => if k' = k then some v else mapGet rest k

/--
`Map.prototype.set` on the association-list model: replaces the binding
of `k` in place, or appends a fresh binding.
-/
def mapSet {α : Type} (m : List (String × α)) (k : String) (v : α) :
    List (String × α) :=
  match m with
  | [] => [(k, v)]
  | (k', v') :: rest =>
    if k' = k then (k, v) :: rest else (k', v') :: mapSet rest k v

/--
The state of a `Bot` (`lib/bot.js`) that the dispatch pipeline reads and
writes: the shared `_cooldowns` map (user and channel snowflakes to
last-accepted timestamps), the two global cooldown windows `_cooldown`
and `_channelCooldown`, the command prefix `_prefix`, the `_commands`
registry (lowercased alias to command instance, instances identified by
a numeric id), and the configured locale returned by `getLocale`.
-/
structure BossBot where
  cooldowns : List (String × Int)
  cooldown : Int
  channelCooldown : Int
  prefixWord : String
  commands : List (String × Nat)
  locale : String
  deriving DecidableEq, Repr

/--
The fields of an inbound message that `Bot.handleMessage` inspects:
whether the author is a bot, the author and channel snowflakes, the
channel type (`"dm"`, `"cli"`, `"text"`, ...), and the text content.
-/
structure Message where
  authorBot : Bool
  authorId : String
  channelId : String
  channelType : String
  content : String
  deriving DecidableEq, Repr

/--
How `Bot.handleMessage` disposes of a message: silently ignored because
the author is a bot; dropped by the user-cooldown gate (invoking
`messageOnGlobalCooldown` with the expiry instant); dropped by the
channel-cooldown gate (invoking `messageOnGlobalChannelCooldown` with
the expiry instant); dispatched to `this.handleCommand(text, message)`;
dropped in a `"text"` channel because the prefix did not match; or
ignored because the channel type is none of the handled ones.
-/
inductive MsgOutcome where
  | ignoredBot : MsgOutcome
  | onUserCooldown : Int → MsgOutcome
  | onChannelCooldown : Int → MsgOutcome
  | commandDispatched : String → MsgOutcome
  | noPrefixIgnored : MsgOutcome
  | ignoredChannelType : MsgOutcome
  deriving DecidableEq, Repr

/--
A prefix matcher as installed on the bot (`this._prefixMatcher`):
`match(prefix, message, locale)` returning the de-prefixed string or
`null` (`none`).
-/
def Matcher : Type := String → String → String → Option String

namespace BossBot

/--
The addressing step of `Bot.handleMessage` (`lib/bot.js` lines
460–474), which runs after both cooldown gates have passed: both the
author's and the channel's cooldown entries are overwritten with `now`,
and the message is routed by channel type — `"dm"`/`"cli"` channels
fall back to the whole content when the prefix fails to match, `"text"`
channels require the prefix, anything else is ignored:

```js
this._cooldowns.set(message.author.id, now);
this._cooldowns.set(message.channel.id, now);
if (message.channel.type === 'dm' || message.channel.type === 'cli') {
  let content = this._prefixMatcher(this._prefix, message.content, this.getLocale(message.channel));
  this.handleCommand(typeof content === 'string' ? content : message.content, message);
} else if (message.channel.type === 'text') {
  let command = this._prefixMatcher(this._prefix, message.content, this.getLocale(message.channel));
  if (typeof command === 'string') this.handleCommand(command, message);
}
```
-/
def handleAddressing (matcher : Matcher) (bot : BossBot) (msg : Message)
    (now : Int) : BossBot × MsgOutcome :=
  let bot' := { bot with
    cooldowns := mapSet (mapSet bot.cooldowns msg.authorId now)
      msg.channelId now }
  if msg.channelType = "dm" ∨ msg.channelType = "cli" then
    let content := matcher bot.prefixWord msg.content bot.locale
    (bot', .commandDispatched (match content with
      | some s => s
      | none => msg.content))
  else if msg.channelType = "text" then
    match matcher bot.prefixWord msg.content bot.locale with
    | some command => (bot', .commandDispatched command)
    | none => (bot', .noPrefixIgnored)
  else
    (bot', .ignoredChannelType)

/--
Shallow embedding of `Bot.handleMessage(message)` (`lib/bot.js` lines
438–475), with the wall clock `now = new Date().getTime()` passed
explicitly.  Bot-authored messages are dropped; then the user cooldown
gate, then the channel cooldown gate (`typeof lastMessage === 'number'`
holds exactly when the map has an entry), each returning before any
state is written; then `handleAddressing`:

```js
if (message.author.bot) return;
let lastMessage = this._cooldowns.get(message.author.id), now = ...;
if (typeof lastMessage === 'number' && lastMessage + this._cooldown > now) {
  this.messageOnGlobalCooldown(message, lastMessage + this._cooldown);
  return;
}
lastMessage = this._cooldowns.get(message.channel.id);
if (typeof lastMessage === 'number' && lastMessage + this._channelCooldown > now) {
  this.messageOnGlobalChannelCooldown(message, lastMessage + this._channelCooldown);
  return;
}
// ... handleAddressing
```
-/
def handleMessage (matcher : Matcher) (bot : BossBot) (msg : Message)
    (now : Int) : BossBot × MsgOutcome :=
  if msg.authorBot then (bot, .ignoredBot)
  else
    match mapGet bot.cooldowns msg.authorId with
    | some lastMessage =>
      if lastMessage + bot.cooldown > now then
        (bot, .onUserCooldown (lastMessage + bot.cooldown))
      else
        match mapGet bot.cooldowns msg.channelId with
        | some lastChannel =>
          if lastChannel + bot.channelCooldown > now then
            (bot, .onChannelCooldown (lastChannel + bot.channelCooldown))
          else handleAddressing matcher bot msg now
        | none => handleAddressing matcher bot msg now
    | none =>
      match mapGet bot.cooldowns msg.channelId with
      | some lastChannel =>
        if lastChannel + bot.channelCooldown > now then
          (bot, .onChannelCooldown (lastChannel + bot.channelCooldown))
        else handleAddressing matcher bot msg now
      | none => handleAddressing matcher bot msg now

/--
Shallow embedding of `Bot.addCommand(command, ...aliases)` (`lib/bot.js`
lines 392–404) for an already-instantiated command: when no aliases are
given the command's own `name` is used, and every alias is bound,
lowercased per the current locale, to the command instance:

```js
if (arguments.length === 1) aliases = [ command.name ];
for (let alias of aliases) {
  this._commands.set(alias.toLocaleLowerCase(this.getLocale()), command);
}
```
-/
def addCommand (bot : BossBot) (command : Nat) (commandName : String)
    (aliases : List String) : BossBot :=
  let aliases := if aliases = [] then [commandName] else aliases
  { bot with
    commands := aliases.foldl
      (fun m aliasName =>
        mapSet m (jsToLocaleLowerCase aliasName bot.locale) command)
      bot.commands }

/--
Shallow embedding of `Bot.findCommand(command)` (`lib/bot.js` lines
425–427): lowercase per the current locale, then look up in the
registry:

```js
return this._commands.get(command.toLocaleLowerCase(this.getLocale()));
```
-/
def findCommand (bot : BossBot) (command : String) : Option Nat :=
  mapGet bot.commands (jsToLocaleLowerCase command bot.locale)

end BossBot

/-! ## Supporting lemmas -/

theorem mapGet_mapSet_self {α : Type} (m : List (String × α)) (k : String)
    (v : α) : mapGet (mapSet m k v) k = some v := by
  induction m with
  | nil => simp [mapGet, mapSet]
  | cons hd tl ih =>
    obtain ⟨k', v'⟩ := hd
    by_cases h : k' = k
    · simp [mapGet, mapSet, h]
    · simp [mapGet, mapSet, h, ih]

theorem mapGet_mapSet_ne {α : Type} (m : List (String × α)) (k k' : String)
    (v : α) (h : k ≠ k') : mapGet (mapSet m k v) k' = mapGet m k' := by
  induction m with
  | nil => simp [mapGet, mapSet, h]
  | cons hd tl ih =>
    obtain ⟨k₀, v₀⟩ := hd
    by_cases h₀ : k₀ = k
    · subst h₀
      simp [mapGet, mapSet, h]
    · simp [mapGet, mapSet, h₀, ih]

/--
After the two cooldown writes of `handleAddressing`, the author's entry
holds `now` (whether or not the channel id collides with the author id).
-/
theorem mapGet_double_mapSet {α : Type} (m : List (String × α))
    (u c : String) (v : α) :
    mapGet (mapSet (mapSet m u v) c v) u = some v := by
  by_cases h : c = u
  · subst h
    exact mapGet_mapSet_self _ _ _
  · rw [mapGet_mapSet_ne _ _ _ _ h]
    exact mapGet_mapSet_self _ _ _

theorem jsCharToLower_jsCharToUpper (c : Char) :
    jsCharToLower (jsCharToUpper c) = jsCharToLower c := by
  unfold jsCharToUpper
  by_cases h : 97 ≤ c.toNat ∧ c.toNat ≤ 122
  · rw [if_pos h]
    have hvalid : (c.toNat - 32).isValidChar := Or.inl (by omega)
    have htn : (Char.ofNat (c.toNat - 32)).toNat = c.toNat - 32 := by
      rw [Char.ofNat, dif_pos hvalid]
      rfl
    unfold jsCharToLower
    rw [if_pos (by omega), if_neg (by omega), htn]
    have : c.toNat - 32 + 32 = c.toNat := by omega
    rw [this, Char.ofNat_toNat]
  · rw [if_neg h]

theorem map_jsCharToLower_jsCharToUpper (l : List Char) :
    (l.map jsCharToUpper).map jsCharToLower = l.map jsCharToLower := by
  induction l with
  | nil => rfl
  | cons c l ih => simp [ih, jsCharToLower_jsCharToUpper]

theorem jsToLocaleLowerCase_jsToUpperCase (s locale : String) :
    jsToLocaleLowerCase (jsToUpperCase s) locale =
      jsToLocaleLowerCase s locale := by
  unfold jsToLocaleLowerCase jsToUpperCase
  exact congrArg String.mk (map_jsCharToLower_jsCharToUpper s.data)

theorem drop_length_takeWhile {α : Type} (p : α → Bool) (l : List α) :
    l.drop (l.takeWhile p).length = l.dropWhile p := by
  induction l with
  | nil => rfl
  | cons a l ih =>
    by_cases h : p a
    · simp [List.takeWhile_cons, List.dropWhile_cons, h, ih]
    · simp [List.takeWhile_cons, List.dropWhile_cons, h]

/-- The state written by `handleAddressing` is the same in every branch:
both cooldown entries are overwritten with `now`. -/
theorem handleAddressing_fst (matcher : Matcher) (bot : BossBot)
    (msg : Message) (now : Int) :
    (BossBot.handleAddressing matcher bot msg now).1 =
      { bot with cooldowns := mapSet (mapSet bot.cooldowns msg.authorId now) msg.channelId now } := by
  unfold BossBot.handleAddressing
  split
  · rfl
  · split
    · split <;> rfl
    · rfl

/-- When both cooldown gates pass, `handleMessage` proceeds to the
addressing step. -/
theorem handleMessage_eq_handleAddressing (matcher : Matcher)
    (bot : BossBot) (msg : Message) (now : Int)
    (hbot : msg.authorBot = false)
    (huser : ∀ last, mapGet bot.cooldowns msg.authorId = some last →
      last + bot.cooldown ≤ now)
    (hchan : ∀ last, mapGet bot.cooldowns msg.channelId = some last →
      last + bot.channelCooldown ≤ now) :
    BossBot.handleMessage matcher bot msg now =
      BossBot.handleAddressing matcher bot msg now := by
  unfold BossBot.handleMessage
  rw [if_neg (by simp [hbot])]
  cases hu : mapGet bot.cooldowns msg.authorId with
  | some last =>
    have h1 : ¬ last + bot.cooldown > now := by
      have := huser last hu
      omega
    cases hc : mapGet bot.cooldowns msg.channelId with
    | some lastC =>
      have h2 : ¬ lastC + bot.channelCooldown > now := by
        have := hchan lastC hc
        omega
      simp [h1, h2]
    | none => simp [h1]
  | none =>
    cases hc : mapGet bot.cooldowns msg.channelId with
    | some lastC =>
      have h2 : ¬ lastC + bot.channelCooldown > now := by
        have := hchan lastC hc
        omega
      simp [h2]
    | none => simp

/-- The `postLoadingDelay` debounce never edits earlier than
`loadingSentAt + postLoadingDelay`. -/
theorem editLoadingTime_ge (loadingSentAt postLoadingDelay now : Int) :
    loadingSentAt + postLoadingDelay ≤
      Command.editLoadingTime loadingSentAt postLoadingDelay now := by
  simp only [Command.editLoadingTime]
  split <;> omega

/-- The diagnostic string produced by `_handleException` is never empty
(it starts with a fixed prefix), hence truthy. -/
theorem _handleException_ne_empty (args : List String) (ex : String) :
    Command._handleException args ex ≠ "" := by
  intro h
  have hd := congrArg String.data h
  rw [Command._handleException] at hd
  simp only [String.data_append] at hd
  rw [List.append_eq_nil, List.append_eq_nil, List.append_eq_nil,
    List.append_eq_nil] at hd
  exact absurd hd.1.1.1.1 (by decide)

/-! ## Claim theorems -/

/--
C2: for every settled handler result and optional loading-message
handle, the deliver-result step of `Command._handleResult` follows the
documented case analysis: a falsy result other than the exact value
`false` deletes the loading message when one exists and does nothing
when none exists; the exact value `false` does nothing either way; a
truthy string or an array of strings edits the loading message with
that content when one exists and otherwise sends it as a new channel
message; and any other object edits/sends using its `content` and
`embed` parts.
-/
theorem handleResult_case_analysis :
    (∀ r : JSValue, r.truthy = false → r ≠ .bool false →
      Command._handleResult r true = (.deleteLoading, true) ∧
      Command._handleResult r false = (.noAction, true)) ∧
    (∀ b : Bool, Command._handleResult (.bool false) b = (.noAction, true)) ∧
    (∀ s : String, (JSValue.str s).truthy = true →
      Command._handleResult (.str s) true =
        (.editLoading (.str s) .undef, true) ∧
      Command._handleResult (.str s) false =
        (.sendChannel (.str s) .undef, true)) ∧
    (∀ a : List String,
      Command._handleResult (.arr a) true =
        (.editLoading (.arr a) .undef, true) ∧
      Command._handleResult (.arr a) false =
        (.sendChannel (.arr a) .undef, true)) ∧
    (∀ c e : JSValue,
      Command._handleResult (.obj c e) true = (.editLoading c e, true) ∧
      Command._handleResult (.obj c e) false = (.sendChannel c e, true)) := by
  refine ⟨?_, ?_, ?_, ?_, ?_⟩
  · intro r ht hne
    cases r <;> simp_all [Command._handleResult, JSValue.truthy]
  · intro b
    cases b <;> simp [Command._handleResult, JSValue.truthy]
  · intro s ht
    simp_all [Command._handleResult, JSValue.truthy]
  · intro a
    simp [Command._handleResult, JSValue.truthy]
  · intro c e
    simp [Command._handleResult, JSValue.truthy]

/-- Witness for C2: concrete instances of each case. -/
theorem handleResult_case_analysis_witness :
    Command._handleResult .nullv true = (.deleteLoading, true) ∧
    Command._handleResult (.bool false) true = (.noAction, true) ∧
    Command._handleResult (.str "hello") true =
      (.editLoading (.str "hello") .undef, true) ∧
    Command._handleResult (.arr ["a", "b"]) false =
      (.sendChannel (.arr ["a", "b"]) .undef, true) ∧
    Command._handleResult (.obj (.str "c") (.str "e")) false =
      (.sendChannel (.str "c") (.str "e"), true) :=
  ⟨(handleResult_case_analysis.1 .nullv (by decide) (by decide)).1,
   handleResult_case_analysis.2.1 true,
   (handleResult_case_analysis.2.2.1 "hello" (by decide)).1,
   (handleResult_case_analysis.2.2.2.1 ["a", "b"]).2,
   (handleResult_case_analysis.2.2.2.2 (.str "c") (.str "e")).2⟩

/--
C10 (implicit): for every truthy handler result that is neither a
string, an array, nor an object (e.g. a nonzero number or the boolean
`true`), `Command._handleResult` performs no send, no edit and no
delete, and returns no promise (`undefined`), whether or not a loading
message exists.
-/
theorem handleResult_ignores_out_of_contract (r : JSValue) (loading : Bool)
    (ht : r.truthy = true)
    (hs : ∀ s, r ≠ .str s) (ha : ∀ a, r ≠ .arr a)
    (ho : ∀ c e, r ≠ .obj c e) :
    Command._handleResult r loading = (.noAction, false) := by
  cases r with
  | str s => exact absurd rfl (hs s)
  | arr a => exact absurd rfl (ha a)
  | obj c e => exact absurd rfl (ho c e)
  | _ => simp_all [Command._handleResult, JSValue.truthy]

/-- Witness for C10: the number 5 with a loading message present. -/
theorem handleResult_ignores_out_of_contract_witness :
    Command._handleResult (.num 5) true = (.noAction, false) :=
  handleResult_ignores_out_of_contract (.num 5) true (by decide)
    (fun _ h => JSValue.noConfusion h) (fun _ h => JSValue.noConfusion h)
    (fun _ _ h => JSValue.noConfusion h)

/--
C3: for every command and every synchronous exception thrown by
`runCommand`, `Command.run` catches the exception (the model
`runSync` is total: nothing propagates) and converts it into the
diagnostic string naming the invoked command `args[0]` and the
exception text, which is delivered through the normal result path as a
channel send.
-/
theorem runSync_exception_reported (args0 : String) (rest : List String)
    (ex : String) :
    Command.runSync (args0 :: rest) (.error ex) =
      (.sendChannel
        (.str ("Exception in " ++ escapeMarkdown args0 ++ ": `"
          ++ escapeMarkdown ex ++ "`")) .undef, true) := by
  have hne := _handleException_ne_empty (args0 :: rest) ex
  unfold Command.runSync Command.resultAfterCatch
  unfold Command._handleResult
  rw [if_neg (by simp [JSValue.truthy, hne])]
  simp [Command._handleException]

/--
C8 counterexample: the claim says assigning any `d` with
`0 ≤ d ≤ 86 400 000` updates the stored cooldown to `d`, but the setter
uses a strict bound (`cooldownTime < 24*60*60*1000`): assigning exactly
86 400 000 leaves a stored cooldown of 3000 unchanged.
-/
theorem set_cooldownTime_counterexample :
    Command.set_cooldownTime (.num 3000) (.num 86400000) = .num 3000 ∧
    Command.set_cooldownTime (.num 3000) (.num 86400000) ≠ .num 86400000 := by
  decide

/--
C8 (amended): assigning a number `d` with `0 ≤ d < 86 400 000` (strictly
below one day) updates the stored cooldown to `d`; any other number
keeps the previous setting; a non-number value is coerced by the
JavaScript `ToNumber` rules — when the coercion is NaN, or lands outside
the range, the previous setting is kept, and when it lands inside the
range the assigned value itself is stored.
-/
theorem set_cooldownTime_range :
    (∀ (old : JSValue) (d : Int), 0 ≤ d → d < 86400000 →
      Command.set_cooldownTime old (.num d) = .num d) ∧
    (∀ (old : JSValue) (d : Int), d < 0 ∨ 86400000 ≤ d →
      Command.set_cooldownTime old (.num d) = old) ∧
    (∀ (old v : JSValue), v.toNumber = none →
      Command.set_cooldownTime old v = old) ∧
    (∀ (old v : JSValue) (n : Int), v.toNumber = some n →
      n < 0 ∨ 86400000 ≤ n → Command.set_cooldownTime old v = old) ∧
    (∀ (old v : JSValue) (n : Int), v.toNumber = some n →
      0 ≤ n → n < 86400000 → Command.set_cooldownTime old v = v) := by
  refine ⟨?_, ?_, ?_, ?_, ?_⟩
  · intro old d h0 h1
    unfold Command.set_cooldownTime jsGe jsLt
    simp only [JSValue.toNumber]
    rw [if_pos (by simp; omega)]
  · intro old d h
    unfold Command.set_cooldownTime jsGe jsLt
    simp only [JSValue.toNumber]
    rw [if_neg (by simp; omega)]
  · intro old v h
    unfold Command.set_cooldownTime jsGe jsLt
    rw [h]
    simp
  · intro old v n h hout
    unfold Command.set_cooldownTime jsGe jsLt
    rw [h]
    rw [if_neg (by simp; omega)]
  · intro old v n h h0 h1
    unfold Command.set_cooldownTime jsGe jsLt
    rw [h]
    rw [if_pos (by simp; omega)]

/--
Witness for C8: an in-range number is stored, a negative number is
ignored, and `null` (which `ToNumber`-coerces to 0, inside the range)
is stored as-is.
-/
theorem set_cooldownTime_range_witness :
    Command.set_cooldownTime (.num 3000) (.num 500) = .num 500 ∧
    Command.set_cooldownTime (.num 3000) (.num (-5)) = .num 3000 ∧
    Command.set_cooldownTime (.num 3000) .nullv = .nullv :=
  ⟨set_cooldownTime_range.1 (.num 3000) 500 (by decide) (by decide),
   set_cooldownTime_range.2.1 (.num 3000) (-5) (Or.inl (by decide)),
   set_cooldownTime_range.2.2.2.2 (.num 3000) .nullv 0 (by decide)
     (by decide) (by decide)⟩

/--
C9: for every command instance registered under an alias `A` via
`addCommand`, `findCommand` resolves `A.toUpperCase()` to the same
command instance as `A` itself: both registration and lookup lowercase
the name per the current locale, so lookup is case-insensitive.
-/
theorem findCommand_case_insensitive (bot : BossBot) (cmd : Nat)
    (commandName a : String) :
    BossBot.findCommand (BossBot.addCommand bot cmd commandName [a])
        (jsToUpperCase a) =
      BossBot.findCommand (BossBot.addCommand bot cmd commandName [a]) a ∧
    BossBot.findCommand (BossBot.addCommand bot cmd commandName [a]) a =
      some cmd := by
  have hred : BossBot.addCommand bot cmd commandName [a] =
      { bot with commands := mapSet bot.commands (jsToLocaleLowerCase a bot.locale) cmd } := by
    unfold BossBot.addCommand
    simp
  rw [hred]
  constructor
  · unfold BossBot.findCommand
    rw [jsToLocaleLowerCase_jsToUpperCase]
  · unfold BossBot.findCommand
    exact mapGet_mapSet_self _ _ _

/--
C7: `PREFIX_WHOLE_WORD.match(prefix, text, locale)` returns `null` iff
the first whitespace-delimited token of `text` does not case/locale-equal
`prefix` (in particular when `text` is blank or whitespace-only there is
no such token, so the result is `null`), and otherwise returns the exact
suffix of `text` following that token, preserving the suffix's own
leading whitespace.
-/
theorem PREFIX_WHOLE_WORD_match_spec (pfx text locale : String) :
    (PREFIX_WHOLE_WORD_match pfx text locale = none ↔
      ¬ ∃ tok, firstToken text = some tok ∧
        localeCompareSearchEq tok pfx locale = true) ∧
    (∀ tok, firstToken text = some tok →
      localeCompareSearchEq tok pfx locale = true →
      PREFIX_WHOLE_WORD_match pfx text locale =
        some (suffixAfterFirstToken text)) := by
  have hsfx : text.data.drop
      ((text.data.takeWhile jsWhitespace).length +
        ((text.data.dropWhile jsWhitespace).takeWhile
          (fun c => ! jsWhitespace c)).length) =
      (text.data.dropWhile jsWhitespace).dropWhile
        (fun c => ! jsWhitespace c) := by
    rw [← List.drop_drop, drop_length_takeWhile, drop_length_takeWhile]
  constructor
  · unfold PREFIX_WHOLE_WORD_match firstToken
    by_cases htok : (text.data.dropWhile jsWhitespace).takeWhile
        (fun c => ! jsWhitespace c) = []
    · simp [htok]
    · by_cases heq : localeCompareSearchEq
          ⟨(text.data.dropWhile jsWhitespace).takeWhile
            (fun c => ! jsWhitespace c)⟩ pfx locale = true
      · simp [htok, heq]
      · simp [htok, heq]
  · intro tok hft heq
    unfold firstToken at hft
    by_cases htok : (text.data.dropWhile jsWhitespace).takeWhile
        (fun c => ! jsWhitespace c) = []
    · simp [htok] at hft
    · simp [htok] at hft
      unfold PREFIX_WHOLE_WORD_match suffixAfterFirstToken
      rw [if_neg htok, if_pos (by rw [hft]; exact heq)]
      rw [hsfx]

/--
Witness for C7: `match("bot", "bot  hi")` strips the first token and
keeps the suffix's leading whitespace.
-/
theorem PREFIX_WHOLE_WORD_match_spec_witness :
    PREFIX_WHOLE_WORD_match "bot" "bot  hi" "en" =
      some (suffixAfterFirstToken "bot  hi") ∧
    suffixAfterFirstToken "bot  hi" = "  hi" :=
  ⟨(PREFIX_WHOLE_WORD_match_spec "bot" "bot  hi" "en").2 "bot" (by decide)
    (by decide), by decide⟩

/--
C4: if `handleMessage` accepts a message from user `u` at time `t0`
(both cooldown gates pass, so `t0` is stored as `u`'s timestamp), then a
second message from `u` handled at `t1` with `t0 + globalCooldown > t1`
is blocked: the state is unchanged (no dispatch happened), the
on-cooldown hook receives the expiry `t0 + globalCooldown`, and `u`'s
stored timestamp still equals `t0` afterwards.
-/
theorem global_cooldown_idempotent
    (matcher : Matcher) (bot bot1 : BossBot) (msg msg2 : Message)
    (t0 t1 : Int) (out : MsgOutcome)
    (hbot : msg.authorBot = false)
    (huser : ∀ last, mapGet bot.cooldowns msg.authorId = some last →
      last + bot.cooldown ≤ t0)
    (hchan : ∀ last, mapGet bot.cooldowns msg.channelId = some last →
      last + bot.channelCooldown ≤ t0)
    (hfirst : BossBot.handleMessage matcher bot msg t0 = (bot1, out))
    (hbot2 : msg2.authorBot = false)
    (hsame : msg2.authorId = msg.authorId)
    (hwin : t0 + bot.cooldown > t1) :
    mapGet bot1.cooldowns msg.authorId = some t0 ∧
    BossBot.handleMessage matcher bot1 msg2 t1 =
      (bot1, .onUserCooldown (t0 + bot.cooldown)) ∧
    mapGet (BossBot.handleMessage matcher bot1 msg2 t1).1.cooldowns
      msg.authorId = some t0 := by
  have hb1 : bot1 = { bot with cooldowns := mapSet (mapSet bot.cooldowns msg.authorId t0) msg.channelId t0 } := by
    have he := handleMessage_eq_handleAddressing matcher bot msg t0 hbot
      huser hchan
    have : bot1 = (BossBot.handleMessage matcher bot msg t0).1 := by
      rw [hfirst]
    rw [he, handleAddressing_fst] at this
    exact this
  have g1 : mapGet bot1.cooldowns msg.authorId = some t0 := by
    rw [hb1]
    exact mapGet_double_mapSet _ _ _ _
  have hcd : bot1.cooldown = bot.cooldown := by rw [hb1]
  have g2 : BossBot.handleMessage matcher bot1 msg2 t1 =
      (bot1, .onUserCooldown (t0 + bot.cooldown)) := by
    unfold BossBot.handleMessage
    rw [if_neg (by simp [hbot2]), hsame, g1]
    simp [hcd, hwin]
  exact ⟨g1, g2, by rw [g2]; exact g1⟩

/--
Witness for C4: a concrete first message is accepted at time 1000 and a
second message from the same user at 2500 (within the 2000ms window) is
blocked with expiry 3000, leaving the stored timestamp at 1000.
-/
theorem global_cooldown_idempotent_witness :
    mapGet (⟨[("u1", (1000 : Int)), ("c1", 1000)], 2000, 125, "bot", [],
      "en"⟩ : BossBot).cooldowns "u1" = some 1000 ∧
    BossBot.handleMessage PREFIX_WHOLE_WORD_match
      (⟨[("u1", 1000), ("c1", 1000)], 2000, 125, "bot", [], "en"⟩ : BossBot)
      (⟨false, "u1", "c1", "text", "bot ping"⟩ : Message) 2500 =
      ((⟨[("u1", 1000), ("c1", 1000)], 2000, 125, "bot", [], "en"⟩ : BossBot),
        .onUserCooldown (1000 + 2000)) ∧
    mapGet (BossBot.handleMessage PREFIX_WHOLE_WORD_match
      (⟨[("u1", 1000), ("c1", 1000)], 2000, 125, "bot", [], "en"⟩ : BossBot)
      (⟨false, "u1", "c1", "text", "bot ping"⟩ : Message) 2500).1.cooldowns
      "u1" = some 1000 :=
  global_cooldown_idempotent PREFIX_WHOLE_WORD_match
    (⟨[], 2000, 125, "bot", [], "en"⟩ : BossBot) _
    (⟨false, "u1", "c1", "text", "bot ping"⟩ : Message)
    (⟨false, "u1", "c1", "text", "bot ping"⟩ : Message)
    1000 2500 (.commandDispatched " ping") rfl
    (by intro last h; simp [mapGet] at h)
    (by intro last h; simp [mapGet] at h)
    (by decide) rfl rfl (by decide)

/--
C5 counterexample: a message whose author passes the user gate but whose
channel is still inside the channel window is dropped — and, contrary to
the claim, the author's timestamp is *not* recorded as `now`: the whole
state, including the user map entry, is left unchanged (the writes
happen only after both gates pass).
-/
theorem channel_cooldown_state_counterexample :
    BossBot.handleMessage PREFIX_WHOLE_WORD_match
      (⟨[("c1", (100 : Int))], 2000, 125, "bot", [], "en"⟩ : BossBot)
      (⟨false, "u1", "c1", "text", "bot ping"⟩ : Message) 150 =
      ((⟨[("c1", 100)], 2000, 125, "bot", [], "en"⟩ : BossBot),
        .onChannelCooldown 225) ∧
    mapGet (BossBot.handleMessage PREFIX_WHOLE_WORD_match
      (⟨[("c1", (100 : Int))], 2000, 125, "bot", [], "en"⟩ : BossBot)
      (⟨false, "u1", "c1", "text", "bot ping"⟩ : Message) 150).1.cooldowns
      "u1" = none := by
  decide

/--
C5 (amended): when the author's user-window check passes but the
channel is still inside the channel window, the message is dropped with
no reply (only the channel-cooldown hook fires, with the computed
expiry) and the bot state is left entirely unchanged: the channel's
stored timestamp is untouched and the user's stored timestamp is *also*
untouched — both writes happen only after both gates pass.
-/
theorem channel_cooldown_blocks_no_mutation
    (matcher : Matcher) (bot : BossBot) (msg : Message) (now lastC : Int)
    (hbot : msg.authorBot = false)
    (huser : ∀ last, mapGet bot.cooldowns msg.authorId = some last →
      last + bot.cooldown ≤ now)
    (hchan : mapGet bot.cooldowns msg.channelId = some lastC)
    (hblock : lastC + bot.channelCooldown > now) :
    BossBot.handleMessage matcher bot msg now =
      (bot, .onChannelCooldown (lastC + bot.channelCooldown)) := by
  unfold BossBot.handleMessage
  rw [if_neg (by simp [hbot])]
  cases hu : mapGet bot.cooldowns msg.authorId with
  | some last =>
    have h1 : ¬ last + bot.cooldown > now := by
      have := huser last hu
      omega
    simp [h1, hchan, hblock]
  | none => simp [hchan, hblock]

/-- Witness for C5's amended theorem: the concrete scenario of the
counterexample, via the theorem. -/
theorem channel_cooldown_blocks_no_mutation_witness :
    BossBot.handleMessage PREFIX_WHOLE_WORD_match
      (⟨[("c2", (100 : Int))], 2000, 125, "bot", [], "en"⟩ : BossBot)
      (⟨false, "u2", "c2", "text", "bot ping"⟩ : Message) 150 =
      ((⟨[("c2", 100)], 2000, 125, "bot", [], "en"⟩ : BossBot),
        .onChannelCooldown (100 + 125)) :=
  channel_cooldown_blocks_no_mutation PREFIX_WHOLE_WORD_match
    (⟨[("c2", 100)], 2000, 125, "bot", [], "en"⟩ : BossBot)
    (⟨false, "u2", "c2", "text", "bot ping"⟩ : Message) 150 100 rfl
    (by intro last h; simp [mapGet] at h) (by decide) (by decide)

/--
C6: for a message that passes the author and cooldown gates, addressing
follows the channel type: in a `"dm"` or `"cli"` channel a failed
prefix match falls back to dispatching the entire message content (so a
bare DM always reaches `handleCommand`) and a successful match
dispatches the stripped remainder; in a `"text"` channel the command is
dispatched only when the prefix matches, with the stripped remainder,
and a failed match dispatches nothing.
-/
theorem addressing_dispatch
    (matcher : Matcher) (bot : BossBot) (msg : Message) (now : Int)
    (hbot : msg.authorBot = false)
    (huser : ∀ last, mapGet bot.cooldowns msg.authorId = some last →
      last + bot.cooldown ≤ now)
    (hchan : ∀ last, mapGet bot.cooldowns msg.channelId = some last →
      last + bot.channelCooldown ≤ now) :
    ((msg.channelType = "dm" ∨ msg.channelType = "cli") →
      (matcher bot.prefixWord msg.content bot.locale = none →
        (BossBot.handleMessage matcher bot msg now).2 =
          .commandDispatched msg.content) ∧
      (∀ s, matcher bot.prefixWord msg.content bot.locale = some s →
        (BossBot.handleMessage matcher bot msg now).2 =
          .commandDispatched s)) ∧
    (msg.channelType = "text" →
      (∀ s, matcher bot.prefixWord msg.content bot.locale = some s →
        (BossBot.handleMessage matcher bot msg now).2 =
          .commandDispatched s) ∧
      (matcher bot.prefixWord msg.content bot.locale = none →
        (BossBot.handleMessage matcher bot msg now).2 =
          .noPrefixIgnored)) := by
  rw [handleMessage_eq_handleAddressing matcher bot msg now hbot huser hchan]
  unfold BossBot.handleAddressing
  constructor
  · intro hdm
    rw [if_pos hdm]
    constructor
    · intro hnone
      rw [hnone]
    · intro s hs
      rw [hs]
  · intro htext
    have hne : ¬ (msg.channelType = "dm" ∨ msg.channelType = "cli") := by
      rw [htext]
      decide
    rw [if_neg hne, if_pos htext]
    constructor
    · intro s hs
      rw [hs]
    · intro hnone
      rw [hnone]

/--
Witness for C6: a bare DM `"ping"` with prefix `"bot"` dispatches the
whole content (the spec's end-to-end scenario), and a `"text"`-channel
message `"bot roll 2d6"` dispatches the stripped remainder.
-/
theorem addressing_dispatch_witness :
    (BossBot.handleMessage PREFIX_WHOLE_WORD_match
      (⟨[], 2000, 125, "bot", [], "en"⟩ : BossBot)
      (⟨false, "u1", "d1", "dm", "ping"⟩ : Message) 1000).2 =
      .commandDispatched "ping" ∧
    (BossBot.handleMessage PREFIX_WHOLE_WORD_match
      (⟨[], 2000, 125, "bot", [], "en"⟩ : BossBot)
      (⟨false, "u2", "t1", "text", "bot roll 2d6"⟩ : Message) 1000).2 =
      .commandDispatched " roll 2d6" :=
  ⟨((addressing_dispatch PREFIX_WHOLE_WORD_match
      (⟨[], 2000, 125, "bot", [], "en"⟩ : BossBot)
      (⟨false, "u1", "d1", "dm", "ping"⟩ : Message) 1000 rfl
      (by intro last h; simp [mapGet] at h)
      (by intro last h; simp [mapGet] at h)).1 (Or.inl rfl)).1 (by decide),
   ((addressing_dispatch PREFIX_WHOLE_WORD_match
      (⟨[], 2000, 125, "bot", [], "en"⟩ : BossBot)
      (⟨false, "u2", "t1", "text", "bot roll 2d6"⟩ : Message) 1000 rfl
      (by intro last h; simp [mapGet] at h)
      (by intro last h; simp [mapGet] at h)).2 rfl).1 " roll 2d6"
      (by decide)⟩

/--
C1 counterexample: a handler promise that settles with a *string* —
the empty string — after the loading delay does not produce an edit at
all: the empty string is falsy, so the loading message is deleted
instead (loading delay 250, post-loading delay 250, settlement at 300).
-/
theorem run_loading_protocol_counterexample :
    Command.runPromiseTrace 250 250 300 0 "Please wait, loading..."
      (.str "") =
      [.sendMsg (.str "Please wait, loading...") .undef 250,
        .deleteMsg 500] ∧
    (Command.runPromiseTrace 250 250 300 0 "Please wait, loading..."
      (.str "")).filter (fun e => e.isEdit) = [] := by
  decide

/--
C1 (amended): for a command with nonnegative `loadingDelay` whose
`runCommand` returns a promise that settles with a *nonempty* string
only after the loading delay has elapsed, `Command.run` causes exactly
one channel send of the loading text followed by exactly one edit of
that loading message with the final text, and the edit is not invoked
before `loadingDelay + postLoadingDelay` milliseconds have elapsed from
the start of the invocation.
-/
theorem run_loading_protocol
    (loadingDelay postLoadingDelay settleTime sendLatency : Int)
    (loadingText finalText : String)
    (hld : 0 ≤ loadingDelay) (htr : loadingDelay < settleTime)
    (hs : finalText ≠ "") :
    ∃ t, Command.runPromiseTrace loadingDelay postLoadingDelay settleTime
        sendLatency loadingText (.str finalText) =
        [.sendMsg (.str loadingText) .undef loadingDelay,
          .editMsg (.str finalText) .undef t] ∧
      loadingDelay + postLoadingDelay ≤ t := by
  unfold Command.runPromiseTrace
  rw [if_neg (by omega), if_neg (by omega)]
  refine ⟨Command.editLoadingTime loadingDelay postLoadingDelay
    (if settleTime < loadingDelay + sendLatency then
      loadingDelay + sendLatency else settleTime), ?_,
    editLoadingTime_ge _ _ _⟩
  simp only [Command.handleResultEvents, Command._handleResult,
    JSValue.truthy]
  rw [if_neg (by simp [hs])]
  simp

/--
Witness for C1's amended theorem: loading delay 250, post-loading delay
250, settlement at 1000 with `"Delayed resolve!"` — one send of the
loading text at 250, one edit no earlier than 500.
-/
theorem run_loading_protocol_witness :
    ∃ t, Command.runPromiseTrace 250 250 1000 0 "Please wait, loading..."
        (.str "Delayed resolve!") =
        [.sendMsg (.str "Please wait, loading...") .undef 250,
          .editMsg (.str "Delayed resolve!") .undef t] ∧
      (250 : Int) + 250 ≤ t :=
  run_loading_protocol 250 250 1000 0 "Please wait, loading..."
    "Delayed resolve!" (by decide) (by decide) (by decide)
